import Mathlib

/-!
Verification development for the LA crimes analysis pipeline
(`lapd.py` together with the style/label module `helper.py`).

The pipeline is embedded shallowly: the incident table is a list of rows
over optional cells, every statistic and chart becomes a pure function of
the table, and operations that can raise in the original (column lookups,
`idxmax` on an empty series, over-sized sampling) return `Except Err`.
Pandas/seaborn library primitives that the script delegates to
(`to_numeric`, `value_counts`, `pivot_table`, `countplot`, `sample`) are
modelled by executable functions whose behaviour on the inputs used here
matches the library semantics.
-/

namespace LACrimes

/-- Errors surfaced by the script: a failed column/key lookup or a value
error from a library call. -/
inductive Err where
  | keyError : String → Err
  | valueError : String → Err
deriving DecidableEq, Repr

/-! ## String and numeric primitives used by the cleaning steps -/

/-- Python `str.zfill` on character lists: left-pad with zeros up to the
requested width, keeping a leading sign in front of the padding. -/
def zfillChars (w : Nat) : List Char → List Char
  | [] => List.replicate w '0'
  | c :: rest =>
    if c = '-' ∨ c = '+' then
      c :: (List.replicate (w - 1 - rest.length) '0' ++ rest)
    else
      List.replicate (w - (c :: rest).length) '0' ++ c :: rest

/-- The last `n` characters of a list, as in a Python `[-n:]` slice. -/
def listTakeRight (n : Nat) (l : List Char) : List Char :=
  l.drop (l.length - n)

/-- Value of a decimal digit character, `none` on anything else. -/
def digitVal (c : Char) : Option Nat :=
  if c.isDigit then some (c.toNat - '0'.toNat) else none

/-- Accumulate decimal digits; fails on the first non-digit. -/
def parseDigitsGo (acc : Nat) : List Char → Option Nat
  | [] => some acc
  | c :: rest =>
    match digitVal c with
    | some d => parseDigitsGo (acc * 10 + d) rest
    | none => none

/-- Parse a non-empty run of decimal digits. -/
def parseDigits : List Char → Option Nat
  | [] => none
  | l => parseDigitsGo 0 l

/-- Drop leading and trailing spaces. -/
def stripSpaces (l : List Char) : List Char :=
  ((l.dropWhile (fun c => c = ' ')).reverse.dropWhile (fun c => c = ' ')).reverse

/-- Model of `pd.to_numeric(, errors="coerce")` on the integer-valued
strings the script feeds it: an optional sign followed by decimal digits
(surrounding spaces ignored); anything else coerces to missing. -/
def toNumericChars (l : List Char) : Option Int :=
  match stripSpaces l with
  | '-' :: rest => (parseDigits rest).map (fun n => -(n : Int))
  | '+' :: rest => (parseDigits rest).map (fun n => (n : Int))
  | l2 => (parseDigits l2).map (fun n => (n : Int))

/-- `to_numeric` on a string cell. -/
def toNumericStr (s : String) : Option Int :=
  toNumericChars s.toList

/-- `astype(str)` on an optional cell: a missing value renders as `"nan"`. -/
def astypeStr (cell : Option String) : String :=
  match cell with
  | none => "nan"
  | some s => s

/-! ## Data model: the incident table -/

/-- A parsed occurrence date, as produced by `pd.to_datetime`. -/
structure DateVal where
  year : Nat
  month : Nat
  day : Nat
deriving DecidableEq, Repr

/-- One input record after column-name normalization.  Every cell is
optional: `none` is pandas `NaN`/`NaT`.  Fields whose column is absent
from the table schema are simply ignored by all accesses. -/
structure Row where
  dr_no : Option Int := none
  date_occ : Option DateVal := none
  date_rptd : Option DateVal := none
  time_occ : Option String := none
  crm_cd_desc : Option String := none
  area_name : Option String := none
  vict_age : Option String := none
  vict_sex : Option String := none
  vict_descent : Option String := none
  lat : Option ℚ := none
  lon : Option ℚ := none
deriving DecidableEq, Repr

/-- The incident table: the schema (list of column names present) plus
the rows. -/
structure Table where
  cols : List String
  rows : List Row
deriving DecidableEq, Repr

/-- Column-presence test, mirroring `"c" in df.columns`. -/
def Table.hasCol (t : Table) (c : String) : Bool :=
  t.cols.contains c

/-- English day name of a date (model of `Series.dt.day_name()`),
computed with Zeller's congruence. -/
def dayName (v : DateVal) : String :=
  let m : Nat := if v.month < 3 then v.month + 12 else v.month
  let y : Nat := if v.month < 3 then v.year - 1 else v.year
  let k := y % 100
  let j := y / 100
  let h := (v.day + (13 * (m + 1)) / 5 + k + k / 4 + j / 4 + 5 * j) % 7
  if h = 0 then "Saturday"
  else if h = 1 then "Sunday"
  else if h = 2 then "Monday"
  else if h = 3 then "Tuesday"
  else if h = 4 then "Wednesday"
  else if h = 5 then "Thursday"
  else "Friday"

/-- A row together with the columns derived in section 3 of the script
(`hour`, `year`, `month`, `weekday`, `month_year`). -/
structure DRow where
  base : Row
  date_occ : Option DateVal
  hour : Option Int
  year : Option Nat
  month : Option Nat
  weekday : Option String
  month_year : Option (Nat × Nat)
deriving DecidableEq, Repr

/-- The `hour` derivation for one cell (`lapd.py` lines 36-37): the cell
is stringified, zero-filled to width 4, sliced to its last 4 characters,
and the first two characters are parsed with `to_numeric` coercion. -/
def deriveHour (cell : Option String) : Option Int :=
  toNumericChars ((listTakeRight 4 (zfillChars 4 (astypeStr cell).toList)).take 2)

/-- Date source selection (`lapd.py` lines 29-32): prefer `date_occ`,
fall back to `date_rptd`; with neither present, the later unconditional
access `df["date_occ"]` at line 42 raises a `KeyError`. -/
def chooseDate (t : Table) : Except Err (Row → Option DateVal) :=
  if t.hasCol "date_occ" = true then .ok (fun r => r.date_occ)
  else if t.hasCol "date_rptd" = true then .ok (fun r => r.date_rptd)
  else .error (.keyError "date_occ")

/-- Sections 3 of the script: produce the derived columns for every row.
The `hour` column is all-missing when `time_occ` is absent (line 39). -/
def deriveRows (t : Table) : Except Err (List DRow) :=
  (chooseDate t).map (fun dsel =>
    t.rows.map (fun r =>
      let d := dsel r
      { base := r
        date_occ := d
        hour := if t.hasCol "time_occ" = true then deriveHour r.time_occ else none
        year := d.map (fun v => v.year)
        month := d.map (fun v => v.month)
        weekday := d.map (fun v => dayName v)
        month_year := d.map (fun v => (v.year, v.month)) }))

/-! ## Counting, mode and sorting primitives (value_counts / idxmax / nlargest) -/

/-- One step of the `idxmax`-of-`value_counts` fold: keep the current
best unless the new element has a strictly larger count in `l`. -/
def modeStep [DecidableEq α] (l : List α) (best : Option α) (x : α) : Option α :=
  match best with
  | none => some x
  | some b => if l.count b < l.count x then some x else best

/-- `value_counts().idxmax()`: the first-occurring element of maximal
multiplicity, `none` on an empty list (where pandas `idxmax` raises). -/
def modeOf [DecidableEq α] (l : List α) : Option α :=
  l.foldl (modeStep l) none

/-- Insert into a list sorted by the boolean comparator `le`. -/
def insertSorted (le : α → α → Bool) (x : α) : List α → List α
  | [] => [x]
  | y :: ys => if le x y then x :: y :: ys else y :: insertSorted le x ys

/-- Insertion sort by a boolean comparator. -/
def sortByLe (le : α → α → Bool) (l : List α) : List α :=
  l.foldr (insertSorted le) []

/-- Sorted list of the distinct elements of `l` (the index/column sets a
pandas pivot table builds from the grouping keys). -/
def sortedUniques [DecidableEq α] (le : α → α → Bool) (l : List α) : List α :=
  sortByLe le l.dedup

/-- Comparator for `Int`. -/
def intLeB (a b : Int) : Bool := decide (a ≤ b)

/-- Comparator for `Nat`. -/
def natLeB (a b : Nat) : Bool := decide (a ≤ b)

/-- Lexicographic strict comparison of character lists. -/
def charListLtB : List Char → List Char → Bool
  | [], [] => false
  | [], _ :: _ => true
  | _ :: _, [] => false
  | a :: as, b :: bs =>
    if a.toNat < b.toNat then true
    else if b.toNat < a.toNat then false
    else charListLtB as bs

/-- Comparator for `String` (lexicographic, as pandas sorts labels). -/
def strLeB (a b : String) : Bool := !(charListLtB b.toList a.toList)

/-- `value_counts()`: distinct values with multiplicities, sorted by
descending count. -/
def valueCountsDesc [DecidableEq α] (l : List α) : List (α × Nat) :=
  sortByLe (fun p q => decide (q.2 ≤ p.2)) (l.dedup.map (fun x => (x, l.count x)))

/-! ## KPI statistics (section 4 of the script) -/

/-- Lexicographic order on dates, for the `min`/`max` of the date range. -/
def dateLeB (a b : DateVal) : Bool :=
  decide (a.year < b.year) ||
    (decide (a.year = b.year) &&
      (decide (a.month < b.month) ||
        (decide (a.month = b.month) && decide (a.day ≤ b.day))))

/-- `Series.min()` over the non-missing dates (`none` when all missing). -/
def minDateOf (l : List DateVal) : Option DateVal :=
  l.foldl (fun acc d =>
    match acc with
    | none => some d
    | some m => if dateLeB d m then some d else some m) none

/-- `Series.max()` over the non-missing dates. -/
def maxDateOf (l : List DateVal) : Option DateVal :=
  l.foldl (fun acc d =>
    match acc with
    | none => some d
    | some m => if dateLeB m d then some d else some m) none

/-- Lines 54-57: distinct crime-type count and most common type; pandas
`idxmax` raises a `ValueError` when the (NaN-free) series is empty. -/
def kpiTopCrime (t : Table) : Except Err (Option String) :=
  if t.hasCol "crm_cd_desc" = true then
    match modeOf (t.rows.filterMap (fun r => r.crm_cd_desc)) with
    | some c => .ok (some c)
    | none => .error (.valueError "attempt to get argmax of an empty sequence")
  else .ok none

/-- Distinct non-missing crime types (`nunique`). -/
def kpiUniqueCrimeTypes (t : Table) : Option Nat :=
  if t.hasCol "crm_cd_desc" = true then
    some (t.rows.filterMap (fun r => r.crm_cd_desc)).dedup.length
  else none

/-- Lines 59-62: most frequent area name with its count. -/
def kpiTopArea (t : Table) : Except Err (Option (String × Nat)) :=
  if t.hasCol "area_name" = true then
    let names := t.rows.filterMap (fun r => r.area_name)
    match modeOf names with
    | some a => .ok (some (a, names.count a))
    | none => .error (.valueError "attempt to get argmax of an empty sequence")
  else .ok none

/-- Lines 65-67: mean incidents per month over the non-missing
`month_year` periods (`none` = NaN when there is no period at all). -/
def avgMonthlyOf (rows : List DRow) : Option ℚ :=
  let periods := rows.filterMap (fun r => r.month_year)
  let groups := periods.dedup
  if groups.length = 0 then none
  else some ((periods.length : ℚ) / (groups.length : ℚ))

/-- Lines 71-72 (and again 145-146): victim ages parsed with coercion and
restricted to the open interval (0, 120). -/
def validAgesOf (t : Table) : List Int :=
  ((t.rows.map (fun r => r.vict_age.bind toNumericStr)).filterMap id).filter
    (fun a => decide (0 < a ∧ a < 120))

/-- Mean of a list of integers, as a rational. -/
def meanInt (l : List Int) : ℚ :=
  ((l.foldl (fun s a => s + a) 0 : Int) : ℚ) / (l.length : ℚ)

/-- Round half to even, the tie-breaking used by float formatting. -/
def roundHalfEven (q : ℚ) : Int :=
  let f := ⌊q⌋
  let r := q - (f : ℚ)
  if r < 1 / 2 then f
  else if 1 / 2 < r then f + 1
  else if f % 2 = 0 then f else f + 1

/-- Characters of the `"{x:.1f}"` format: optional sign, integer digits,
a point, then exactly one fractional digit. -/
def fmtFixed1Chars (q : ℚ) : List Char :=
  let n := roundHalfEven (q * 10)
  let sgn : List Char := if n < 0 then ['-'] else []
  let m := n.natAbs
  sgn ++ Nat.toDigits 10 (m / 10) ++ '.' :: Nat.toDigits 10 (m % 10)

/-- Lines 70-74: the printed average-victim-age line, produced only when
the column is present and some age survives the range filter. -/
def ageStatLine (t : Table) : Option (List Char) :=
  if t.hasCol "vict_age" = true then
    let va := validAgesOf t
    if va.length = 0 then none
    else some ("Average victim age:           ".toList ++ fmtFixed1Chars (meanInt va))
  else none

/-- The descent code column with missing values filled by `"X"`
(`fillna("X")`, lines 77 and 179). -/
def fillDescent (t : Table) : List String :=
  (t.rows.map (fun r => r.vict_descent)).map (fun o => o.getD "X")

/-- `Except.isOk` spelled out: did the computation survive? -/
def exceptIsOk : Except ε α → Bool
  | .ok _ => true
  | .error _ => false

/-- The fixed code-to-label table of `helper.py`. -/
def descentMap : List (String × String) :=
  [("A", "Other Asian"), ("B", "Black"), ("C", "Chinese"),
   ("D", "Cambodian"), ("F", "Filipino"), ("G", "Guamanian"),
   ("H", "Hispanic/Latin/Mexican"), ("I", "American Indian/Alaskan Native"),
   ("J", "Japanese"), ("K", "Korean"), ("L", "Laotian"),
   ("O", "Other"), ("P", "Pacific Islander"), ("S", "Samoan"),
   ("U", "Hawaiian"), ("V", "Vietnamese"), ("W", "White"),
   ("X", "Unknown"), ("Z", "Asian Indian")]

/-- Label of a descent code, `none` when the code is not a key. -/
def descentLookup (c : String) : Option String :=
  (descentMap.find? (fun p => decide (p.1 = c))).map (fun p => p.2)

/-- The raw `vict_descent` column, missing values included. -/
def descentCells (t : Table) : List (Option String) :=
  t.rows.map (fun r => r.vict_descent)

/-- Lines 76-80: the top descent code (after the fill) is translated with
a plain dict subscript, so an unmapped top code raises `KeyError`; an
empty table prints no code line (`nlargest(1)` of an empty series). -/
def kpiDescent (t : Table) : Except Err (Option (String × Nat)) :=
  if t.hasCol "vict_descent" = true then
    match modeOf (fillDescent t) with
    | none => .ok none
    | some c =>
      match descentLookup c with
      | some lbl => .ok (some (lbl, (fillDescent t).count c))
      | none => .error (.keyError c)
  else .ok none

/-! ## Charts (section 5 of the script) -/

/-- Categories shown by `sns.countplot`: the explicit `order` when one is
given, otherwise the sorted distinct non-missing data values. -/
def countplotCats [DecidableEq α] (le : α → α → Bool)
    (ord : Option (List α)) (data : List (Option α)) : List α :=
  match ord with
  | some o => o
  | none => sortedUniques le (data.filterMap id)

/-- The fixed weekday order of lines 105 and 119. -/
def weekdayOrder : List String :=
  ["Monday", "Tuesday", "Wednesday", "Thursday", "Friday", "Saturday", "Sunday"]

/-- Lines 103-107: the weekday countplot categories. -/
def weekdayChartCats (rows : List DRow) : List String :=
  countplotCats strLeB (some weekdayOrder) (rows.map (fun r => r.weekday))

/-- Lines 110-114: the hour countplot categories (no explicit order). -/
def hourChartCats (rows : List DRow) : List Int :=
  countplotCats intLeB none (rows.map (fun r => r.hour))

/-- A pivot table: realized index values, realized column values, and the
count in each cell (zero where no contributing row exists). -/
structure PivotT (ι κ : Type) where
  index : List ι
  cols : List κ
  cell : ι → κ → Nat

/-- Line 118: `pivot_table(index="hour", columns="weekday",
values="dr_no", aggfunc="count", fill_value=0)`.  Rows with a missing
grouping key are dropped; a missing `dr_no` column raises `KeyError`;
cells count the non-missing `dr_no` values of their group. -/
def hourWeekdayPivot (t : Table) (rows : List DRow) :
    Except Err (PivotT Int String) :=
  if t.hasCol "dr_no" = true then
    let retained := rows.filter (fun r => decide (r.hour.isSome = true ∧ r.weekday.isSome = true))
    .ok { index := sortedUniques intLeB (retained.filterMap (fun r => r.hour))
          cols := sortedUniques strLeB (retained.filterMap (fun r => r.weekday))
          cell := fun h w =>
            (retained.filter (fun r =>
              decide (r.hour = some h ∧ r.weekday = some w ∧ r.base.dr_no.isSome = true))).length }
  else .error (.keyError "dr_no")

/-- Line 119: reindex the pivot columns to the fixed weekday order; a
weekday absent from the realized columns raises `KeyError`. -/
def reorderCols (p : PivotT Int String) : Except Err (PivotT Int String) :=
  match weekdayOrder.find? (fun w => !(p.cols.contains w)) with
  | some w => .error (.keyError w)
  | none => .ok { p with cols := weekdayOrder }

/-- Lines 127-131: top-10 areas chart data. -/
def topAreasChart (t : Table) : Option (List (String × Nat)) :=
  if t.hasCol "area_name" = true then
    some ((valueCountsDesc (t.rows.filterMap (fun r => r.area_name))).take 10)
  else none

/-- Lines 135-140: top-15 crime types chart data. -/
def topCrimesChart (t : Table) : Option (List (String × Nat)) :=
  if t.hasCol "crm_cd_desc" = true then
    some ((valueCountsDesc (t.rows.filterMap (fun r => r.crm_cd_desc))).take 15)
  else none

/-- Lines 144-152: the data fed to the victim-age histogram. -/
def ageHistData (t : Table) : Option (List Int) :=
  if t.hasCol "vict_age" = true then some (validAgesOf t) else none

/-- Lines 156-172: victim sex pie data, missing filled as `"Unknown"`. -/
def sexChartCounts (t : Table) : Option (List (String × Nat)) :=
  if t.hasCol "vict_sex" = true then
    some (valueCountsDesc ((t.rows.map (fun r => r.vict_sex)).map (fun o => o.getD "Unknown")))
  else none

/-- Lines 177-184: descent chart data — codes filled with `"X"`, mapped
through the label table (`Series.map` sends unmapped codes to missing),
then counted with missing labels excluded, top 10 kept. -/
def descentChartCounts (t : Table) : Option (List (String × Nat)) :=
  if t.hasCol "vict_descent" = true then
    some ((valueCountsDesc ((fillDescent t).filterMap descentLookup)).take 10)
  else none

/-- The subset a seeded pandas `sample(n, random_state=seed)` draws: a
deterministic function of the seed and the population, of size `n`
whenever `n` does not exceed the population (the library permutation
itself is modelled as a seed-dependent rotation). -/
def sampleList (seed n : Nat) (xs : List α) : List α :=
  let k := seed % (xs.length + 1)
  ((xs.drop k) ++ (xs.take k)).take n

/-- Lines 188-197: the scatter sample.  The geocoded subset is the rows
with both coordinates present, but the requested size is
`min(100000, len(df))` over the whole table, so the draw raises a
`ValueError` whenever that exceeds the geocoded population. -/
def scatterSampleWith (seed : Nat) (t : Table) : Except Err (Option (List Row)) :=
  if (t.hasCol "lat" && t.hasCol "lon") = true then
    let sub := t.rows.filter (fun r => decide (r.lat.isSome = true ∧ r.lon.isSome = true))
    let n := min 100000 t.rows.length
    if sub.length < n then
      .error (.valueError "Cannot take a larger sample than population")
    else .ok (some (sampleList seed n sub))
  else .ok none

/-- The literal `random_state=1` of line 189. -/
def pipelineScatterSeed : Nat := 1

/-- Lines 200-207: the year-by-month pivot after `dropna` on the derived
`year`/`month` columns; again `values="dr_no"` raises when absent. -/
def yearMonthPivot (t : Table) (rows : List DRow) :
    Except Err (PivotT Nat Nat) :=
  if t.hasCol "dr_no" = true then
    let retained := rows.filter (fun r => decide (r.year.isSome = true ∧ r.month.isSome = true))
    .ok { index := sortedUniques natLeB (retained.filterMap (fun r => r.year))
          cols := sortedUniques natLeB (retained.filterMap (fun r => r.month))
          cell := fun y m =>
            (retained.filter (fun r =>
              decide (r.year = some y ∧ r.month = some m ∧ r.base.dr_no.isSome = true))).length }
  else .error (.keyError "dr_no")

/-! ## The whole pipeline -/

/-- Everything the run produces: the printed statistics (as structured
values) and the data behind each chart. -/
structure Output where
  totalRecords : Nat
  dateMin : Option DateVal
  dateMax : Option DateVal
  uniqueCrimeTypes : Option Nat
  topCrime : Option String
  topArea : Option (String × Nat)
  avgMonthly : Option ℚ
  ageLine : Option (List Char)
  topDescent : Option (String × Nat)
  weekdayCats : List String
  hourCats : List Int
  hourWeekday : PivotT Int String
  topAreas : Option (List (String × Nat))
  topCrimes : Option (List (String × Nat))
  ageHist : Option (List Int)
  sexCounts : Option (List (String × Nat))
  descentCounts : Option (List (String × Nat))
  scatterSampleRows : Option (List Row)
  yearMonth : PivotT Nat Nat

/-- The script top to bottom: derive columns, print KPIs, render charts.
Failure points appear in source order (date derivation, `idxmax` calls,
descent subscript, pivot + reorder, sample, second pivot). -/
def runPipeline (t : Table) : Except Err Output := do
  let rows ← deriveRows t
  let topCrime ← kpiTopCrime t
  let topArea ← kpiTopArea t
  let topDescent ← kpiDescent t
  let p0 ← hourWeekdayPivot t rows
  let p ← reorderCols p0
  let sc ← scatterSampleWith pipelineScatterSeed t
  let p2 ← yearMonthPivot t rows
  .ok { totalRecords := t.rows.length
        dateMin := minDateOf (rows.filterMap (fun r => r.date_occ))
        dateMax := maxDateOf (rows.filterMap (fun r => r.date_occ))
        uniqueCrimeTypes := kpiUniqueCrimeTypes t
        topCrime := topCrime
        topArea := topArea
        avgMonthly := avgMonthlyOf rows
        ageLine := ageStatLine t
        topDescent := topDescent
        weekdayCats := weekdayChartCats rows
        hourCats := hourChartCats rows
        hourWeekday := p
        topAreas := topAreasChart t
        topCrimes := topCrimesChart t
        ageHist := ageHistData t
        sexCounts := sexChartCounts t
        descentCounts := descentChartCounts t
        scatterSampleRows := sc
        yearMonth := p2 }

/-- Decimal rendering of a natural number. -/
def natChars (n : Nat) : List Char := Nat.toDigits 10 n

/-- Decimal rendering of an integer. -/
def intChars (i : Int) : List Char :=
  (if i < 0 then ['-'] else []) ++ natChars i.natAbs

/-- Rendering of an optional date (missing prints as `NaT`). -/
def dateChars : Option DateVal → List Char
  | none => "NaT".toList
  | some d => natChars d.year ++ '-' :: natChars d.month ++ '-' :: natChars d.day

/-- The printed KPI block, one line per list entry (optional statistics
contribute a line only when present), mirroring lines 50-82. -/
def renderKPIs (o : Output) : List (List Char) :=
  ["========= KPI Summary =========".toList,
   "Total records:                ".toList ++ natChars o.totalRecords,
   "Date range:                   ".toList ++ dateChars o.dateMin ++ " to ".toList ++ dateChars o.dateMax]
  ++ (match o.uniqueCrimeTypes with
      | some n => ["Unique crime types:           ".toList ++ natChars n]
      | none => [])
  ++ (match o.topCrime with
      | some c => ["Most common crime type:       ".toList ++ c.toList]
      | none => [])
  ++ (match o.topArea with
      | some p => ["Top area by count:            ".toList ++ p.1.toList,
                   "Crimes in area:               ".toList ++ natChars p.2]
      | none => [])
  ++ (match o.avgMonthly with
      | some q => ["Average crimes per month:     ".toList ++ fmtFixed1Chars q]
      | none => [])
  ++ (match o.ageLine with
      | some l => [l]
      | none => [])
  ++ (match o.topDescent with
      | some p => ["Top victim descent code:".toList,
                   "      ".toList ++ p.1.toList ++ ": ".toList ++ natChars p.2]
      | none => [])
  ++ ["===============================".toList]

/-- The console output of a run. -/
def printedStats (t : Table) : Except Err (List (List Char)) :=
  (runPipeline t).map renderKPIs

/-! ## Composite steps used by the individual claims -/

/-- Derivation followed by the hour-by-weekday pivot of line 118. -/
def hourWeekdayStep (t : Table) : Except Err (PivotT Int String) := do
  let rows ← deriveRows t
  hourWeekdayPivot t rows

/-- Derivation, pivot, and the column reorder of line 119. -/
def hourWeekdayReordered (t : Table) : Except Err (PivotT Int String) := do
  let rows ← deriveRows t
  let p ← hourWeekdayPivot t rows
  reorderCols p

/-- Derivation followed by the year-by-month pivot of line 202. -/
def yearMonthStep (t : Table) : Except Err (PivotT Nat Nat) := do
  let rows ← deriveRows t
  yearMonthPivot t rows

/-- Derivation followed by the hour countplot categories of line 112. -/
def hourChartStep (t : Table) : Except Err (List Int) :=
  (deriveRows t).map hourChartCats

/-- Derivation followed by the scatter sampling of line 189. -/
def scatterStep (t : Table) : Except Err (Option (List Row)) := do
  let _ ← deriveRows t
  scatterSampleWith pipelineScatterSeed t

/-- Number of characters strictly after the last point of a rendered
line (the decimal places shown). -/
def decimalsAfterPoint (l : List Char) : Nat :=
  (l.reverse.takeWhile (fun c => decide (c ≠ '.'))).length

/-- The hour computation as the specification words it: the time code is
converted to a string (a missing cell stringifies as `"nan"`), zero-padded
to 4 characters, truncated to its last 4 characters, and the integer
parsed from the first two characters, with non-numeric prefixes coerced
to missing. -/
def specDerivedHour (cell : Option String) : Option Int :=
  let asString : String := match cell with | none => "nan" | some v => v
  let padded : List Char := zfillChars 4 asString.toList
  let lastFour : List Char := padded.drop (padded.length - 4)
  toNumericChars (lastFour.take 2)

/-! ## Concrete tables used by counterexamples and witnesses -/

/-- 2020-01-06, a Monday. -/
def dMon : DateVal := ⟨2020, 1, 6⟩

/-- A table lacking both date columns. -/
def tNoDates : Table :=
  { cols := ["dr_no", "time_occ"]
    rows := [{ dr_no := some 1, time_occ := some "1200" }] }

/-- Rows realizing only the Monday weekday, plus a row whose hour is
valid (8) but whose date — hence weekday — is missing. -/
def tC2 : Table :=
  { cols := ["dr_no", "date_occ", "time_occ"]
    rows := [{ dr_no := some 1, date_occ := some dMon, time_occ := some "0900" },
             { dr_no := some 2, date_occ := none, time_occ := some "0800" }] }

/-- A full week (2020-01-06 … 2020-01-12): Monday at hour 9, the other
six days at hour 10. -/
def tWeek : Table :=
  { cols := ["dr_no", "date_occ", "time_occ"]
    rows := [{ dr_no := some 1, date_occ := some ⟨2020, 1, 6⟩, time_occ := some "0900" },
             { dr_no := some 2, date_occ := some ⟨2020, 1, 7⟩, time_occ := some "1000" },
             { dr_no := some 3, date_occ := some ⟨2020, 1, 8⟩, time_occ := some "1000" },
             { dr_no := some 4, date_occ := some ⟨2020, 1, 9⟩, time_occ := some "1000" },
             { dr_no := some 5, date_occ := some ⟨2020, 1, 10⟩, time_occ := some "1000" },
             { dr_no := some 6, date_occ := some ⟨2020, 1, 11⟩, time_occ := some "1000" },
             { dr_no := some 7, date_occ := some ⟨2020, 1, 12⟩, time_occ := some "1000" }] }

/-- Derived rows of `tWeek`. -/
def rowsWeek : List DRow := (deriveRows tWeek).toOption.getD []

/-- Extract a pivot from an `Except`, with an empty default. -/
def pivotOrDefault (e : Except Err (PivotT Int String)) : PivotT Int String :=
  match e with
  | .ok p => p
  | .error _ => { index := [], cols := [], cell := fun _ _ => 0 }

/-- The hour-by-weekday pivot of `tWeek`. -/
def pWeek : PivotT Int String := pivotOrDefault (hourWeekdayPivot tWeek rowsWeek)

/-- The reordered pivot of `tWeek`. -/
def qWeek : PivotT Int String := pivotOrDefault (reorderCols pWeek)

/-- A full week with descent codes, including the unmapped code `"Q"`
on a non-majority row. -/
def tQ : Table :=
  { cols := ["dr_no", "date_occ", "time_occ", "vict_descent"]
    rows := [{ dr_no := some 1, date_occ := some ⟨2020, 1, 6⟩, time_occ := some "0900",
               vict_descent := some "B" },
             { dr_no := some 2, date_occ := some ⟨2020, 1, 7⟩, time_occ := some "0900",
               vict_descent := some "B" },
             { dr_no := some 3, date_occ := some ⟨2020, 1, 8⟩, time_occ := some "0900",
               vict_descent := some "B" },
             { dr_no := some 4, date_occ := some ⟨2020, 1, 9⟩, time_occ := some "0900",
               vict_descent := some "Q" },
             { dr_no := some 5, date_occ := some ⟨2020, 1, 10⟩, time_occ := some "0900",
               vict_descent := some "W" },
             { dr_no := some 6, date_occ := some ⟨2020, 1, 11⟩, time_occ := some "0900",
               vict_descent := some "H" },
             { dr_no := some 7, date_occ := some ⟨2020, 1, 12⟩, time_occ := some "0900",
               vict_descent := some "X" }] }

/-- Latitude/longitude columns present, but only one of the two rows is
geocoded. -/
def tGeo : Table :=
  { cols := ["dr_no", "date_occ", "lat", "lon"]
    rows := [{ dr_no := some 1, date_occ := some dMon, lat := some 34, lon := some (-118) },
             { dr_no := some 2, date_occ := some dMon, lat := none, lon := some (-118) }] }

/-- A full week whose Monday row carries the time code `"9999"`. -/
def t10 : Table :=
  { cols := ["dr_no", "date_occ", "time_occ"]
    rows := [{ dr_no := some 1, date_occ := some ⟨2020, 1, 6⟩, time_occ := some "9999" },
             { dr_no := some 2, date_occ := some ⟨2020, 1, 7⟩, time_occ := some "0900" },
             { dr_no := some 3, date_occ := some ⟨2020, 1, 8⟩, time_occ := some "0900" },
             { dr_no := some 4, date_occ := some ⟨2020, 1, 9⟩, time_occ := some "0900" },
             { dr_no := some 5, date_occ := some ⟨2020, 1, 10⟩, time_occ := some "0900" },
             { dr_no := some 6, date_occ := some ⟨2020, 1, 11⟩, time_occ := some "0900" },
             { dr_no := some 7, date_occ := some ⟨2020, 1, 12⟩, time_occ := some "0900" }] }

/-- Victim ages 150 (implausible), 30 and 40. -/
def tAges : Table :=
  { cols := ["vict_age"]
    rows := [{ vict_age := some "150" }, { vict_age := some "30" },
             { vict_age := some "40" }] }

/-- A table exercising the time parsing: a 4-digit code, a missing cell
and a 3-digit code. -/
def tTime : Table :=
  { cols := ["date_occ", "time_occ"]
    rows := [{ date_occ := some dMon, time_occ := some "0930" },
             { date_occ := some dMon, time_occ := none },
             { date_occ := some dMon, time_occ := some "345" }] }

/-- Derived rows of `tTime`. -/
def rowsTime : List DRow := (deriveRows tTime).toOption.getD []

/-- Three missing descent values against single occurrences of `"B"`
and `"W"`. -/
def tDesc : Table :=
  { cols := ["vict_descent"]
    rows := [{ vict_descent := none }, { vict_descent := none },
             { vict_descent := none }, { vict_descent := some "B" },
             { vict_descent := some "W" }] }

/-! ## Library lemmas about the list primitives -/

theorem mem_insertSorted {le : α → α → Bool} {x a : α} {l : List α} :
    a ∈ insertSorted le x l ↔ a = x ∨ a ∈ l := by
  induction l with
  | nil => simp [insertSorted]
  | cons y ys ih =>
    unfold insertSorted
    split
    · simp [List.mem_cons]
    · simp only [List.mem_cons, ih]
      tauto

theorem mem_sortByLe {le : α → α → Bool} {a : α} {l : List α} :
    a ∈ sortByLe le l ↔ a ∈ l := by
  induction l with
  | nil => simp [sortByLe]
  | cons y ys ih =>
    simp only [sortByLe, List.foldr_cons] at *
    rw [mem_insertSorted, ih, List.mem_cons]

theorem mem_sortedUniques [DecidableEq α] {le : α → α → Bool} {a : α} {l : List α} :
    a ∈ sortedUniques le l ↔ a ∈ l := by
  rw [sortedUniques, mem_sortByLe, List.mem_dedup]

theorem foldl_modeStep_fixed [DecidableEq α] {l : List α} {x : α}
    (hmax : ∀ y ∈ l, y = x ∨ l.count y < l.count x) :
    ∀ ys : List α, (∀ y ∈ ys, y ∈ l) → ys.foldl (modeStep l) (some x) = some x := by
  intro ys
  induction ys with
  | nil => intro _; rfl
  | cons y ys ih =>
    intro hsub
    have hy : y ∈ l := hsub y (List.mem_cons_self y ys)
    have hstep : modeStep l (some x) y = some x := by
      show (if l.count x < l.count y then some y else some x) = some x
      rcases hmax y hy with h | h
      · subst h; simp
      · rw [if_neg (Nat.lt_asymm h)]
    rw [List.foldl_cons, hstep]
    exact ih (fun z hz => hsub z (List.mem_cons_of_mem y hz))

theorem foldl_modeStep_reaches [DecidableEq α] {l : List α} {x : α}
    (hmax : ∀ y ∈ l, y = x ∨ l.count y < l.count x) :
    ∀ ys : List α, (∀ y ∈ ys, y ∈ l) → x ∈ ys →
      ∀ acc : Option α, (acc = none ∨ ∃ b ∈ l, acc = some b) →
      ys.foldl (modeStep l) acc = some x := by
  intro ys
  induction ys with
  | nil => intro _ hx; cases hx
  | cons y ys ih =>
    intro hsub hx acc hacc
    have hy : y ∈ l := hsub y (List.mem_cons_self y ys)
    have hsub2 : ∀ z ∈ ys, z ∈ l := fun z hz => hsub z (List.mem_cons_of_mem y hz)
    rw [List.foldl_cons]
    by_cases hyx : y = x
    · subst hyx
      have hstep : modeStep l acc y = some y := by
        rcases hacc with h | ⟨b, hb, h⟩
        · subst h; rfl
        · subst h
          show (if l.count b < l.count y then some y else some b) = some y
          rcases hmax b hb with hbx | hbx
          · subst hbx; simp
          · rw [if_pos hbx]
      rw [hstep]
      exact foldl_modeStep_fixed hmax ys hsub2
    · have hx2 : x ∈ ys := by
        rcases List.mem_cons.mp hx with h | h
        · exact absurd h.symm hyx
        · exact h
      have hacc2 : modeStep l acc y = none ∨ ∃ b ∈ l, modeStep l acc y = some b := by
        rcases hacc with h | ⟨b, hb, h⟩
        · subst h; exact Or.inr ⟨y, hy, rfl⟩
        · subst h
          have hshape : modeStep l (some b) y = some y ∨ modeStep l (some b) y = some b := by
            by_cases hc : l.count b < l.count y
            · exact Or.inl (by
                show (if l.count b < l.count y then some y else some b) = some y
                rw [if_pos hc])
            · exact Or.inr (by
                show (if l.count b < l.count y then some y else some b) = some b
                rw [if_neg hc])
          rcases hshape with h | h
          · exact Or.inr ⟨y, hy, h⟩
          · exact Or.inr ⟨b, hb, h⟩
      exact ih hsub2 hx2 _ hacc2

theorem modeOf_eq_of_strict_max [DecidableEq α] {l : List α} {x : α} (hx : x ∈ l)
    (hmax : ∀ y ∈ l, y ≠ x → l.count y < l.count x) :
    modeOf l = some x := by
  have hmax2 : ∀ y ∈ l, y = x ∨ l.count y < l.count x := by
    intro y hy
    by_cases h : y = x
    · exact Or.inl h
    · exact Or.inr (hmax y hy h)
  exact foldl_modeStep_reaches hmax2 l (fun z hz => hz) hx none (Or.inl rfl)

theorem count_map_getD_ne (l : List (Option String)) (c : String) (hc : c ≠ "X") :
    (l.map (fun o => o.getD "X")).count c = (l.filterMap id).count c := by
  induction l with
  | nil => rfl
  | cons o l ih =>
    cases o with
    | none =>
      have h1 : List.filterMap id (none :: l) = List.filterMap id l := rfl
      have h2 : List.map (fun o => o.getD "X") (none :: l)
          = "X" :: List.map (fun o => o.getD "X") l := rfl
      rw [h2, h1, List.count_cons, ih]
      simp [Ne.symm hc]
    | some v =>
      have h1 : List.filterMap id (some v :: l) = v :: List.filterMap id l := rfl
      have h2 : List.map (fun o => o.getD "X") (some v :: l)
          = v :: List.map (fun o => o.getD "X") l := rfl
      rw [h2, h1, List.count_cons, List.count_cons, ih]

theorem count_map_getD_X (l : List (Option String)) :
    (l.map (fun o => o.getD "X")).count "X"
      = (l.filterMap id).count "X" + (l.filter (fun o => decide (o = none))).length := by
  induction l with
  | nil => rfl
  | cons o l ih =>
    cases o with
    | none =>
      have h1 : List.filterMap id (none :: l) = List.filterMap id l := rfl
      have h2 : List.map (fun o => o.getD "X") (none :: l)
          = "X" :: List.map (fun o => o.getD "X") l := rfl
      have h3 : List.filter (fun o => decide (o = none)) (none :: l)
          = none :: List.filter (fun o => decide (o = none)) l := rfl
      rw [h2, h1, h3, List.count_cons, ih]
      simp
      omega
    | some v =>
      have h1 : List.filterMap id (some v :: l) = v :: List.filterMap id l := rfl
      have h2 : List.map (fun o => o.getD "X") (some v :: l)
          = v :: List.map (fun o => o.getD "X") l := rfl
      have h3 : List.filter (fun o => decide (o = none)) (some v :: l)
          = List.filter (fun o => decide (o = none)) l := rfl
      rw [h2, h1, h3, List.count_cons, List.count_cons, ih]
      by_cases hv : v = "X"
      · simp [hv]; try omega
      · simp [hv]; try omega

theorem takeWhile_append_of_all {p : Char → Bool} {xs : List Char} {y : Char} {ys : List Char}
    (hxs : ∀ x ∈ xs, p x = true) (hy : p y = false) :
    (xs ++ y :: ys).takeWhile p = xs := by
  induction xs with
  | nil =>
    simp [List.takeWhile_cons, hy]
  | cons x xs ih =>
    have hx : p x = true := hxs x (List.mem_cons_self x xs)
    simp only [List.cons_append, List.takeWhile_cons, hx, if_true]
    rw [ih (fun z hz => hxs z (List.mem_cons_of_mem x hz))]

theorem toDigits_lt_ten (k : Nat) (hk : k < 10) :
    (Nat.toDigits 10 k).length = 1 ∧ ∀ c ∈ Nat.toDigits 10 k, c ≠ '.' := by
  interval_cases k <;> exact ⟨rfl, by decide⟩

theorem decimalsAfterPoint_fmtFixed1 (l : List Char) (q : ℚ) :
    decimalsAfterPoint (l ++ fmtFixed1Chars q) = 1 := by
  unfold decimalsAfterPoint fmtFixed1Chars
  have hlt : (roundHalfEven (q * 10)).natAbs % 10 < 10 := Nat.mod_lt _ (by norm_num)
  obtain ⟨hlen, hmem⟩ := toDigits_lt_ten _ hlt
  rw [show ∀ a b c : List Char, ∀ d : Char, l ++ (a ++ b ++ d :: c) = (l ++ a ++ b) ++ d :: c by
    intro a b c d; simp [List.append_assoc]]
  rw [List.reverse_append, List.reverse_cons, List.append_assoc, List.singleton_append]
  rw [takeWhile_append_of_all (p := fun c => decide (c ≠ '.'))
    (fun x hx => by
      have := hmem x (List.mem_reverse.mp hx)
      simp [this])
    (by simp)]
  rw [List.length_reverse, hlen]

/-! ## Claim C1: missing columns are skipped without error -/

/-- C1, counterexample: the claim says any table lacking relevant
columns still completes without raising; but for a table lacking both
date columns the unconditional `df["date_occ"]` access of line 42
raises a `KeyError` and the whole run aborts. -/
theorem c1_counterexample :
    runPipeline tNoDates = .error (.keyError "date_occ") := rfl

/-- C1, amended: only the statistics and charts wrapped in explicit
column-presence checks (crime types, areas, victim age/sex/descent, the
lat/lon scatter) are skipped without error when their source columns
are absent; the date derivation is unconditional and raises a
`KeyError` when both date columns are missing, and both pivot charts
raise a `KeyError` when `dr_no` is missing. -/
theorem c1_amended (t : Table) :
    (t.hasCol "date_occ" = false → t.hasCol "date_rptd" = false →
      runPipeline t = .error (.keyError "date_occ"))
    ∧ (t.hasCol "crm_cd_desc" = false →
      kpiTopCrime t = .ok none ∧ kpiUniqueCrimeTypes t = none ∧ topCrimesChart t = none)
    ∧ (t.hasCol "area_name" = false →
      kpiTopArea t = .ok none ∧ topAreasChart t = none)
    ∧ (t.hasCol "vict_age" = false → ageStatLine t = none ∧ ageHistData t = none)
    ∧ (t.hasCol "vict_sex" = false → sexChartCounts t = none)
    ∧ (t.hasCol "vict_descent" = false →
      kpiDescent t = .ok none ∧ descentChartCounts t = none)
    ∧ ((t.hasCol "lat" && t.hasCol "lon") = false →
      ∀ s, scatterSampleWith s t = .ok none)
    ∧ (t.hasCol "dr_no" = false → ∀ rows,
      hourWeekdayPivot t rows = .error (.keyError "dr_no")
      ∧ yearMonthPivot t rows = .error (.keyError "dr_no")) := by
  refine ⟨?_, ?_, ?_, ?_, ?_, ?_, ?_, ?_⟩
  · intro h1 h2
    have hde : deriveRows t = .error (.keyError "date_occ") := by
      unfold deriveRows chooseDate
      rw [h1, h2]
      rfl
    unfold runPipeline
    rw [hde]
    rfl
  · intro h
    unfold kpiTopCrime kpiUniqueCrimeTypes topCrimesChart
    rw [h]
    exact ⟨rfl, rfl, rfl⟩
  · intro h
    unfold kpiTopArea topAreasChart
    rw [h]
    exact ⟨rfl, rfl⟩
  · intro h
    unfold ageStatLine ageHistData
    rw [h]
    exact ⟨rfl, rfl⟩
  · intro h
    unfold sexChartCounts
    rw [h]
    rfl
  · intro h
    unfold kpiDescent descentChartCounts
    rw [h]
    exact ⟨rfl, rfl⟩
  · intro h s
    unfold scatterSampleWith
    rw [h]
    rfl
  · intro h rows
    unfold hourWeekdayPivot yearMonthPivot
    rw [h]
    exact ⟨rfl, rfl⟩

/-- C1, witness for the amended statement at the concrete no-date
table: the run aborts on the date key while each guarded statistic
skips cleanly. -/
theorem c1_witness :
    runPipeline tNoDates = .error (.keyError "date_occ")
    ∧ kpiTopCrime tNoDates = .ok none
    ∧ ageStatLine tNoDates = none
    ∧ kpiDescent tNoDates = .ok none := by
  refine ⟨(c1_amended tNoDates).1 rfl rfl,
    ((c1_amended tNoDates).2.1 rfl).1,
    ((c1_amended tNoDates).2.2.2.1 rfl).1,
    ((c1_amended tNoDates).2.2.2.2.2.1 rfl).1⟩

/-! ## Claim C2: pivots fill absent combinations with zero -/

/-- C2, counterexample: for `tC2` the realized pivot index is `[9]`, so
the row with valid hour 8 (and missing weekday) is dropped, the
(9, Tuesday) combination is not represented at all — instead the
column reorder raises a `KeyError` — and the year-by-month pivot has
the single column `[1]`, so the absent month-2 combination is not
represented by a zero. -/
theorem c2_counterexample :
    hourWeekdayReordered tC2 = .error (.keyError "Tuesday")
    ∧ (hourWeekdayStep tC2).toOption.map (fun p => p.index) = some [9]
    ∧ (deriveRows tC2).toOption.map (fun rows => rows.map (fun r => r.hour))
        = some [some 9, some 8]
    ∧ (yearMonthStep tC2).toOption.map (fun p => p.cols) = some [1] :=
  ⟨rfl, rfl, rfl, rfl⟩

/-- C2, amended: within the realized index and column value sets, the
pivots carry the count 0 (never a missing marker) for combinations no
row contributes to; but the index holds exactly the hours (resp.
years) occurring in rows whose other grouping key is present — a row
with valid hour and missing weekday is dropped, and values that never
occur are absent from the pivot rather than zero-filled. -/
theorem c2_amended (t : Table) (rows : List DRow) :
    (∀ p, hourWeekdayPivot t rows = .ok p →
      (∀ h w, (¬ ∃ r ∈ rows, r.hour = some h ∧ r.weekday = some w
          ∧ r.base.dr_no.isSome = true) → p.cell h w = 0)
      ∧ (∀ h, h ∈ p.index ↔ ∃ r ∈ rows, r.hour = some h ∧ r.weekday.isSome = true))
    ∧ (∀ p, yearMonthPivot t rows = .ok p →
      (∀ y m, (¬ ∃ r ∈ rows, r.year = some y ∧ r.month = some m
          ∧ r.base.dr_no.isSome = true) → p.cell y m = 0)
      ∧ (∀ m, m ∈ p.cols ↔ ∃ r ∈ rows, r.month = some m ∧ r.year.isSome = true)) := by
  constructor
  · intro p hp
    unfold hourWeekdayPivot at hp
    by_cases hdr : t.hasCol "dr_no" = true
    · rw [if_pos hdr] at hp
      injection hp with hp
      subst hp
      constructor
      · intro h w hno
        rw [show ∀ l : List DRow, l.length = 0 ↔ l = [] from fun l => List.length_eq_zero]
        rw [List.filter_eq_nil_iff]
        intro r hr
        rw [decide_eq_true_eq]
        rintro ⟨hh, hw, hd⟩
        exact hno ⟨r, List.mem_of_mem_filter hr, hh, hw, hd⟩
      · intro h
        rw [mem_sortedUniques, List.mem_filterMap]
        constructor
        · rintro ⟨r, hr, hh⟩
          have hprop := List.of_mem_filter hr
          rw [decide_eq_true_eq] at hprop
          exact ⟨r, List.mem_of_mem_filter hr, hh, hprop.2⟩
        · rintro ⟨r, hr, hh, hw⟩
          refine ⟨r, List.mem_filter.mpr ⟨hr, ?_⟩, hh⟩
          rw [decide_eq_true_eq]
          exact ⟨by rw [hh]; rfl, hw⟩
    · rw [if_neg hdr] at hp
      exact Except.noConfusion hp
  · intro p hp
    unfold yearMonthPivot at hp
    by_cases hdr : t.hasCol "dr_no" = true
    · rw [if_pos hdr] at hp
      injection hp with hp
      subst hp
      constructor
      · intro y m hno
        rw [show ∀ l : List DRow, l.length = 0 ↔ l = [] from fun l => List.length_eq_zero]
        rw [List.filter_eq_nil_iff]
        intro r hr
        rw [decide_eq_true_eq]
        rintro ⟨hy, hm, hd⟩
        exact hno ⟨r, List.mem_of_mem_filter hr, hy, hm, hd⟩
      · intro m
        rw [mem_sortedUniques, List.mem_filterMap]
        constructor
        · rintro ⟨r, hr, hm⟩
          have hprop := List.of_mem_filter hr
          rw [decide_eq_true_eq] at hprop
          exact ⟨r, List.mem_of_mem_filter hr, hm, hprop.1⟩
        · rintro ⟨r, hr, hm, hy⟩
          refine ⟨r, List.mem_filter.mpr ⟨hr, ?_⟩, hm⟩
          rw [decide_eq_true_eq]
          exact ⟨hy, by rw [hm]; rfl⟩
    · rw [if_neg hdr] at hp
      exact Except.noConfusion hp

/-- C2, witness for the amended statement: in `tWeek` the (9, Tuesday)
combination has no contributing row, and its cell is 0 while 9 is a
realized index value. -/
theorem c2_witness :
    pWeek.cell 9 "Tuesday" = 0 ∧ (9 : Int) ∈ pWeek.index := by
  have h := (c2_amended tWeek rowsWeek).1 pWeek rfl
  exact ⟨h.1 9 "Tuesday" (by decide), (h.2 9).mpr (by decide)⟩

/-! ## Claim C3: the fixed Monday-Sunday order -/

/-- C3: the weekday bar chart uses the constant Monday…Sunday category
order for every input (rows in any order, weekdays possibly missing),
and whenever the heatmap column reorder succeeds its columns are
exactly that same fixed order. -/
theorem c3_fixed_weekday_order :
    (∀ rows : List DRow, weekdayChartCats rows = weekdayOrder)
    ∧ (∀ p q : PivotT Int String, reorderCols p = .ok q → q.cols = weekdayOrder) := by
  constructor
  · intro rows
    rfl
  · intro p q h
    unfold reorderCols at h
    cases hf : weekdayOrder.find? (fun w => !(p.cols.contains w)) with
    | none =>
      rw [hf] at h
      injection h with h
      subst h
      rfl
    | some w =>
      rw [hf] at h
      exact Except.noConfusion h

/-- C3, witness: the full-week table realizes both conjuncts, with the
reorder succeeding and producing the Monday…Sunday columns. -/
theorem c3_witness :
    weekdayChartCats rowsWeek = weekdayOrder ∧ qWeek.cols = weekdayOrder :=
  ⟨c3_fixed_weekday_order.1 rowsWeek, c3_fixed_weekday_order.2 pWeek qWeek (by rfl)⟩

/-! ## Claim C4: the derived hour -/

/-- C4: when `time_occ` is present, every row's derived hour equals the
specification's stringify / zero-pad to 4 / keep last 4 / parse first
2 computation; when the column is absent, the hour column is missing
for all rows. -/
theorem c4_hour_derivation (t : Table) (rows : List DRow)
    (hd : deriveRows t = .ok rows) :
    (t.hasCol "time_occ" = true →
      rows.map (fun r => r.hour) = t.rows.map (fun r => specDerivedHour r.time_occ))
    ∧ (t.hasCol "time_occ" = false →
      rows.map (fun r => r.hour) = t.rows.map (fun _ => (none : Option Int))) := by
  unfold deriveRows chooseDate at hd
  by_cases h1 : t.hasCol "date_occ" = true
  · rw [if_pos h1] at hd
    simp only [Except.map] at hd
    injection hd with hd
    subst hd
    constructor <;> intro ht <;> rw [List.map_map] <;>
      refine List.map_congr_left (fun r _ => ?_)
    · show (if t.hasCol "time_occ" = true then deriveHour r.time_occ else none)
        = specDerivedHour r.time_occ
      rw [if_pos ht]
      rfl
    · show (if t.hasCol "time_occ" = true then deriveHour r.time_occ else none)
        = none
      rw [ht]
      rfl
  · rw [if_neg h1] at hd
    by_cases h2 : t.hasCol "date_rptd" = true
    · rw [if_pos h2] at hd
      simp only [Except.map] at hd
      injection hd with hd
      subst hd
      constructor <;> intro ht <;> rw [List.map_map] <;>
        refine List.map_congr_left (fun r _ => ?_)
      · show (if t.hasCol "time_occ" = true then deriveHour r.time_occ else none)
          = specDerivedHour r.time_occ
        rw [if_pos ht]
        rfl
      · show (if t.hasCol "time_occ" = true then deriveHour r.time_occ else none)
          = none
        rw [ht]
        rfl
    · rw [if_neg h2] at hd
      exact Except.noConfusion hd

/-- C4, witness: the derivation on `tTime` ("0930", a missing cell,
"345") matches the specification computation positionally. -/
theorem c4_witness :
    rowsTime.map (fun r => r.hour)
      = tTime.rows.map (fun r => specDerivedHour r.time_occ) :=
  (c4_hour_derivation tTime rowsTime rfl).1 rfl

/-! ## Claim C5: the victim-age filter and format -/

/-- C5: ages at most 0 or at least 120 are excluded from the age-mean
data and from the histogram data, and the printed mean line carries
exactly one decimal place. -/
theorem c5_age_filter_and_format (t : Table) :
    (∀ a : Int, a ≤ 0 ∨ 120 ≤ a → a ∉ validAgesOf t)
    ∧ (∀ l, ageHistData t = some l → ∀ a : Int, a ≤ 0 ∨ 120 ≤ a → a ∉ l)
    ∧ (∀ s, ageStatLine t = some s → decimalsAfterPoint s = 1) := by
  have hval : ∀ a : Int, a ≤ 0 ∨ 120 ≤ a → a ∉ validAgesOf t := by
    intro a ha hmem
    unfold validAgesOf at hmem
    have hp := List.of_mem_filter hmem
    rw [decide_eq_true_eq] at hp
    omega
  refine ⟨hval, ?_, ?_⟩
  · intro l hl
    unfold ageHistData at hl
    by_cases h : t.hasCol "vict_age" = true
    · rw [if_pos h] at hl
      injection hl with hl
      subst hl
      exact hval
    · rw [if_neg h] at hl
      exact Option.noConfusion hl
  · intro s hs
    unfold ageStatLine at hs
    by_cases h : t.hasCol "vict_age" = true
    · rw [if_pos h] at hs
      by_cases h2 : (validAgesOf t).length = 0
      · rw [if_pos h2] at hs
        exact Option.noConfusion hs
      · rw [if_neg h2] at hs
        injection hs with hs
        subst hs
        exact decimalsAfterPoint_fmtFixed1 _ _
    · rw [if_neg h] at hs
      exact Option.noConfusion hs

/-- C5, witness: age 150 is excluded from the data of both the mean
and the histogram on `tAges`, whose printed line has one decimal. -/
theorem c5_witness :
    (150 : Int) ∉ validAgesOf tAges
    ∧ decimalsAfterPoint ((ageStatLine tAges).getD []) = 1 :=
  ⟨(c5_age_filter_and_format tAges).1 150 (Or.inr (by norm_num)),
   (c5_age_filter_and_format tAges).2.2 ((ageStatLine tAges).getD []) rfl⟩

/-! ## Claim C6: unmapped descent codes -/

/-- C6, counterexample: the unmapped code `"Q"` occurs in `tQ`, yet the
whole pipeline completes — the KPI subscript only touches the most
frequent code, and the chart's `Series.map` silently drops unmapped
codes — so an occurring unmapped code is not fatal as claimed. -/
theorem c6_counterexample :
    some "Q" ∈ tQ.rows.map (fun r => r.vict_descent)
    ∧ descentLookup "Q" = none
    ∧ exceptIsOk (runPipeline tQ) = true :=
  ⟨by decide, rfl, by decide⟩

/-- C6, amended: with the descent column present, the descent lookup is
fatal exactly when the most frequent filled code is unmapped (the KPI
dict subscript), while the chart path translates codes through a
mapping that yields only mapped labels — unmapped codes are dropped,
never fatal. -/
theorem c6_amended (t : Table) (h : t.hasCol "vict_descent" = true) :
    (exceptIsOk (kpiDescent t) = false ↔
      ∃ c, modeOf (fillDescent t) = some c ∧ descentLookup c = none)
    ∧ (∀ pr ∈ (descentChartCounts t).getD [], ∃ code ∈ fillDescent t,
        descentLookup code = some pr.1) := by
  constructor
  · unfold kpiDescent
    rw [if_pos h]
    cases hm : modeOf (fillDescent t) with
    | none => simp [exceptIsOk]
    | some c =>
      cases hl : descentLookup c with
      | none => simp [exceptIsOk, hl]
      | some lbl => simp [exceptIsOk, hl]
  · intro pr hpr
    unfold descentChartCounts at hpr
    rw [if_pos h] at hpr
    simp only [Option.getD_some] at hpr
    have h1 : pr ∈ valueCountsDesc ((fillDescent t).filterMap descentLookup) :=
      List.take_subset _ _ hpr
    unfold valueCountsDesc at h1
    rw [mem_sortByLe] at h1
    rcases List.mem_map.mp h1 with ⟨x, hx, hpx⟩
    have hxL : x ∈ (fillDescent t).filterMap descentLookup := List.mem_dedup.mp hx
    rcases List.mem_filterMap.mp hxL with ⟨code, hcode, hcx⟩
    subst hpx
    exact ⟨code, hcode, hcx⟩

/-- C6, witness: on `tQ` the chart's top label "Black" comes from a
mapped occurring code. -/
theorem c6_witness :
    ∃ code ∈ fillDescent tQ, descentLookup code = some "Black" :=
  (c6_amended tQ rfl).2 ("Black", 3) (by decide)

/-! ## Claim C7: the scatter sample size -/

/-- C7 (code bug): on `tGeo` the geocoded population is 1 but the code
requests `min(100000, len(df)) = 2` — computed over the whole table
rather than the geocoded subset — so the draw raises instead of
producing a sample of size `min(100000, geocoded)`. -/
theorem c7_sample_size_bug :
    (tGeo.rows.filter (fun r => decide (r.lat.isSome = true ∧ r.lon.isSome = true))).length = 1
    ∧ min 100000 tGeo.rows.length = 2
    ∧ scatterStep tGeo = .error (.valueError "Cannot take a larger sample than population") :=
  ⟨rfl, rfl, rfl⟩

/-! ## Claim C8: reproducibility -/

/-- C8: the printed statistics and the whole pipeline output are pure
functions of the input table — two runs on the same table are
identical — and the scatter sampling is invoked with the literal fixed
seed 1. -/
theorem c8_reproducible (t1 t2 : Table) (h : t1 = t2) :
    printedStats t1 = printedStats t2
    ∧ runPipeline t1 = runPipeline t2
    ∧ scatterStep t1 = (do
        let _ ← deriveRows t2
        scatterSampleWith 1 t2) := by
  subst h
  exact ⟨rfl, rfl, rfl⟩

/-- C8, witness: instantiated at the full-week table. -/
theorem c8_witness :
    printedStats tWeek = printedStats tWeek
    ∧ runPipeline tWeek = runPipeline tWeek
    ∧ scatterStep tWeek = (do
        let _ ← deriveRows tWeek
        scatterSampleWith 1 tWeek) :=
  c8_reproducible tWeek tWeek rfl

/-! ## Claim C9: missing descent values become "Unknown" -/

/-- C9: missing descent cells are filled with `"X"` before the top
statistic; when the missing cells outnumber every occurring code, the
reported top descent is the label "Unknown" with a count comprising
the missing rows plus the literal `"X"` occurrences. -/
theorem c9_missing_descent_majority (t : Table)
    (h1 : t.hasCol "vict_descent" = true)
    (h2 : 0 < ((descentCells t).filter (fun o => decide (o = none))).length)
    (h3 : ∀ c ∈ (descentCells t).filterMap id,
      ((descentCells t).filterMap id).count c
        < ((descentCells t).filter (fun o => decide (o = none))).length) :
    kpiDescent t = .ok (some ("Unknown",
      ((descentCells t).filterMap id).count "X"
        + ((descentCells t).filter (fun o => decide (o = none))).length)) := by
  have hfd : fillDescent t = (descentCells t).map (fun o => o.getD "X") := rfl
  have hmemX : "X" ∈ fillDescent t := by
    rw [hfd]
    have hne : (descentCells t).filter (fun o => decide (o = none)) ≠ [] := by
      intro hnil
      rw [hnil] at h2
      exact absurd h2 (by simp)
    rcases List.exists_mem_of_ne_nil _ hne with ⟨o, ho⟩
    have hmem := List.mem_of_mem_filter ho
    have hprop := List.of_mem_filter ho
    rw [decide_eq_true_eq] at hprop
    subst hprop
    exact List.mem_map.mpr ⟨none, hmem, rfl⟩
  have hcountX : (fillDescent t).count "X"
      = ((descentCells t).filterMap id).count "X"
        + ((descentCells t).filter (fun o => decide (o = none))).length := by
    rw [hfd]
    exact count_map_getD_X _
  have hmax : ∀ y ∈ fillDescent t, y ≠ "X" →
      (fillDescent t).count y < (fillDescent t).count "X" := by
    intro y hy hyX
    rw [hfd] at hy
    rcases List.mem_map.mp hy with ⟨o, ho, hoy⟩
    have hcy : (fillDescent t).count y = ((descentCells t).filterMap id).count y := by
      rw [hfd]
      exact count_map_getD_ne _ _ hyX
    have hoy2 : o = some y := by
      cases o with
      | none => exact absurd (show y = "X" from hoy.symm) hyX
      | some v => rw [show v = y from hoy]
    have hymem : y ∈ (descentCells t).filterMap id :=
      List.mem_filterMap.mpr ⟨some y, hoy2 ▸ ho, rfl⟩
    rw [hcy, hcountX]
    exact lt_of_lt_of_le (h3 y hymem) (Nat.le_add_left _ _)
  have hmode : modeOf (fillDescent t) = some "X" := modeOf_eq_of_strict_max hmemX hmax
  unfold kpiDescent
  rw [if_pos h1]
  simp only [hmode]
  rw [show descentLookup "X" = some "Unknown" from rfl]
  rw [hcountX]

/-- C9, witness: three missing cells against single "B" and "W"
occurrences yield the top descent "Unknown" with count 3. -/
theorem c9_witness : kpiDescent tDesc = .ok (some ("Unknown", 3)) :=
  c9_missing_descent_majority tDesc rfl (by decide) (by decide)

/-! ## Claim C10: hours are not validated to 0-23 -/

/-- C10: the time code `"9999"` derives hour 99, which then shows up as
a category of the hourly distribution chart and as an index row of the
(reordered) hour-by-weekday pivot on `t10`. -/
theorem c10_out_of_range_hour :
    deriveHour (some "9999") = some 99
    ∧ hourChartStep t10 = .ok [9, 99]
    ∧ (hourWeekdayReordered t10).toOption.map (fun p => p.index) = some [9, 99] :=
  ⟨rfl, rfl, by decide⟩

end LACrimes
